import Mathlib

/-!
Shallow embedding of the request-normalization core in `main.py` of
`yat_geo_db_api`: boolean coercion (`parse_bool`), the filter resolver
(`parse_params`), and the three HTTP handlers (`fuzzy_search`, `fetch`,
`radius_search`) behind `/api/search/`, `/api/fetch/` and `/api/radius/`.

Modelling conventions:
* Python scalar values that can reach `parse_bool` are `PyVal` (booleans,
  integers, floats — modelled as rationals, faithful for sign tests —
  and strings).
* Query parameters (`dict(request.args)`) are association lists
  `List (String × String)`; `dict.get` is `getParam` (first match).
* Python `None` is `Option.none`; a function that can raise `ValueError`
  (`int(...)` on a non-numeric string) returns `Option`, with `none` for
  the raised, uncaught fault.  A handler therefore has type
  `Engine → List (String × String) → Option Response`, with `none`
  meaning the handler raised out of the core.
* The external engine (`GeoManager`) is an explicit record of functions.
* The callback transport mode `f"{callback}({json.dumps(res)});"` is kept
  structurally as `Body.script callback payload`; serialization itself is
  irrelevant to every property proved here.
* Response headers are not modelled; no property below concerns them.
-/

/-- A JSON value, the shape of engine payloads and response bodies. -/
inductive Json where
  | null : Json
  | bool : Bool → Json
  | num : Int → Json
  | str : String → Json
  | arr : List Json → Json
  | obj : List (String × Json) → Json

/-- Python scalar values that flow into `parse_bool`:
`bool`, `int` (incl. numpy ints), `float` (incl. numpy floats, modelled as
rationals — every float is a rational and only its sign is consulted),
and `str`. -/
inductive PyVal where
  | VBool : Bool → PyVal
  | VInt : Int → PyVal
  | VFloat : ℚ → PyVal
  | VStr : String → PyVal
deriving DecidableEq

/-- Python `str.lower()` on ASCII text, as a per-character map.  (Defined
over the character list so that it evaluates inside the kernel.) -/
def pyLower (s : String) : String := ⟨s.data.map Char.toLower⟩

/-- Python `str.upper()` on ASCII text, as a per-character map. -/
def pyUpper (s : String) : String := ⟨s.data.map Char.toUpper⟩

/-- The whitespace characters stripped by Python `int(str)`. -/
def isPySpace (c : Char) : Bool :=
  c == ' ' || c == '\t' || c == '\n' || c == '\x0d' || c == '\x0b' || c == '\x0c'

/-- Python `str.strip()` on a character list. -/
def pyStrip (cs : List Char) : List Char :=
  ((cs.dropWhile isPySpace).reverse.dropWhile isPySpace).reverse

/-- The affirmative string set of `parse_bool` (main.py line 41). -/
def affirmative : List String := ["yes", "y", "true", "t", "1"]

/-- The negative string set of `parse_bool` (main.py line 43). -/
def negative : List String := ["no", "n", "false", "f", "0"]

/-- `parse_bool(x, nullable, default)` (main.py lines 28–48): booleans pass
through; ints and floats test `> 0`; strings are matched case-insensitively
against the affirmative and negative sets; anything unmatched yields `None`
when `nullable` else `default`. -/
def parse_bool (x : PyVal) (nullable : Bool) (default : Bool) : Option Bool :=
  match x with
  | PyVal.VBool b => some b
  | PyVal.VInt n => some (decide (0 < n))
  | PyVal.VFloat q => some (decide (0 < q))
  | PyVal.VStr s =>
    if pyLower s ∈ affirmative then some true
    else if pyLower s ∈ negative then some false
    else if nullable then none else some default

/-- A validated filter value: boolean for the coerced keys, a string for
the two-letter geographic codes. -/
inductive FilterVal where
  | FBool : Bool → FilterVal
  | FStr : String → FilterVal
deriving DecidableEq

/-- `allowed_params` (main.py lines 66–69). -/
def allowed_params : List String :=
  ["is_zip_code", "is_aggregate", "is_three_digit_zip_code", "geo_type",
   "ref_data.country", "ref_data.state_prov"]

/-- The per-key validator table `params_func` (main.py lines 70–77).
The four boolean keys use `parse_bool(val)` with its defaults
(`nullable=True`, `default=False`); the two geographic keys uppercase the
value when it has exactly 2 characters and otherwise yield `None`.  Keys
outside the table are never consulted by `parse_params`. -/
def params_func (key : String) (val : String) : Option FilterVal :=
  match key with
  | "is_zip_code" => (parse_bool (PyVal.VStr val) true false).map FilterVal.FBool
  | "is_aggregate" => (parse_bool (PyVal.VStr val) true false).map FilterVal.FBool
  | "is_three_digit_zip_code" => (parse_bool (PyVal.VStr val) true false).map FilterVal.FBool
  | "geo_type" => (parse_bool (PyVal.VStr val) true false).map FilterVal.FBool
  | "ref_data.country" => if val.length = 2 then some (FilterVal.FStr (pyUpper val)) else none
  | "ref_data.state_prov" => if val.length = 2 then some (FilterVal.FStr (pyUpper val)) else none
  | _ => none

/-- `dict.get(k)`: the value of the first pair whose key is `k`. -/
def getParam (qp : List (String × String)) (k : String) : Option String :=
  match qp with
  | [] => none
  | p :: rest => if p.1 = k then some p.2 else getParam rest k

/-- The keys of the request that lie in `allowed_params`
(`included_params`, main.py line 80), in input order. -/
def included_params (qp : List (String × String)) : List String :=
  (qp.map Prod.fst).filter (fun p => decide (p ∈ allowed_params))

/-- The accumulation loop of `parse_params` (main.py lines 82–87): for each
included key, look the raw value up, validate it, and append the validated
pair when the validator did not yield `None`.  (Keys of a Python dict are
distinct, so `params.update` always inserts a fresh key, i.e. appends.) -/
def build_params (qp : List (String × String)) :
    List String → List (String × FilterVal) → List (String × FilterVal)
  | [], params => params
  | k :: rest, params =>
    match getParam qp k with
    | none => build_params qp rest params
    | some raw =>
      match params_func k raw with
      | none => build_params qp rest params
      | some v => build_params qp rest (params ++ [(k, v)])

/-- `parse_params` (main.py lines 79–90): `None` when no recognized key is
present or every validated value was dropped, otherwise the accumulated
non-empty mapping. -/
def parse_params (qp : List (String × String)) : Option (List (String × FilterVal)) :=
  if included_params qp ≠ [] then
    let params := build_params qp (included_params qp) []
    if params ≠ [] then some params else none
  else none

/-- The numeric value of a run of decimal digits. -/
def digitsToNat (ds : List Char) : Nat :=
  ds.foldl (fun a c => a * 10 + (c.toNat - Char.toNat '0')) 0

/-- Python `int(s)` on a decimal string literal: surrounding whitespace is
stripped, an optional single sign precedes a non-empty run of ASCII
digits; any other string raises `ValueError`, modelled as `none`.
(Grouping underscores and non-ASCII digits are not modelled; no input in
this development uses them.) -/
def pyInt (s : String) : Option Int :=
  let core : Int × List Char :=
    match pyStrip s.data with
    | '+' :: rest => (1, rest)
    | '-' :: rest => (-1, rest)
    | cs => (1, cs)
  if core.2 ≠ [] ∧ core.2.all Char.isDigit then
    some (core.1 * (digitsToNat core.2 : Int))
  else none

/-- First value in a JSON object's pair list whose key is `k`
(Python `dict.get(k)` on a nested mapping). -/
def jlookup (m : List (String × Json)) (k : String) : Option Json :=
  match m with
  | [] => none
  | p :: rest => if p.1 = k then some p.2 else jlookup rest k

/-- A Search Match produced by the engine's fuzzy search.  The handler
accesses `x.get('id')`, `x.get('value', '')` and the nested mapping
`x.get('extra', {})`; each field is `none` when the corresponding dict key
is missing. -/
structure Match where
  id : Option Json
  value : Option Json
  extra : Option (List (String × Json))

/-- `x.get('extra', {})` of a Search Match. -/
def extraDict (x : Match) : List (String × Json) := x.extra.getD []

/-- `x.get('extra', {}).get('id', None)` (main.py lines 118 and 127),
rendered as JSON `null` when missing. -/
def matchShapeId (x : Match) : Json := (jlookup (extraDict x) "id").getD Json.null

/-- `x.get('extra', {}).get('ref_data', {})` (main.py line 117). -/
def matchRef (x : Match) : Json := (jlookup (extraDict x) "ref_data").getD (Json.obj [])

/-- The extended Response Record built when `include_ref` is present
(main.py lines 113–121). -/
def extendedRecord (x : Match) : Json :=
  Json.obj [("id", x.id.getD Json.null), ("name", x.value.getD (Json.str "")),
            ("ref", matchRef x), ("shape_id", matchShapeId x)]

/-- The minimal Response Record built when `include_ref` is absent
(main.py lines 123–129). -/
def minimalRecord (x : Match) : Json :=
  Json.obj [("id", x.id.getD Json.null), ("name", x.value.getD (Json.str "")),
            ("shape_id", matchShapeId x)]

/-- The external engine (`GeoManager`), as the record of the five functions
the handlers call.  Payload-producing calls return `Option Json`, `none`
being Python `None`. -/
structure Engine where
  fuzzy_search : String → Int → Option (List (String × FilterVal)) → List Match
  get_shape_by_id : Int → Option Json
  get_shape_by_ref_code : String → Option Json
  get_shape_ref_code : Int → Option String
  radius_search : String → Int → Option Bool → Option Json

/-- A response body: plain JSON (`json_response` / `make_response`), or the
legacy callback script `f"{callback}({json.dumps(payload)});"` kept
structurally. -/
inductive Body where
  | json : Json → Body
  | script : String → Json → Body

/-- A transport response: body and HTTP status. -/
structure Response where
  body : Body
  status : Nat

/-- The structured error body `{"error": msg}`. -/
def errBody (msg : String) : Body := Body.json (Json.obj [("error", Json.str msg)])

/-- The missing-query-string error response (main.py lines 101–104). -/
def qErrResp : Response := ⟨errBody "Must provide query string `?q=<query string>`", 400⟩

/-- The not-found error response (main.py lines 157, 185, 194). -/
def notFoundResp : Response := ⟨errBody "not found", 404⟩

/-- The radius-bound error response (main.py lines 179–181). -/
def radiusErrResp : Response := ⟨errBody "radius must be greater than 1", 404⟩

/-- `int(query_params.get('num_results', 8) or 8)` (main.py lines 97 and
108): `8` when the parameter is absent or its value falsy (the empty
string), otherwise Python `int` of the value — `none` when that raises. -/
def numResultsArg (qp : List (String × String)) : Option Int :=
  match getParam qp "num_results" with
  | none => some 8
  | some s => if s = "" then some 8 else pyInt s

/-- The `/api/search/` GET handler `fuzzy_search` (main.py lines 92–137).
`none` models an uncaught `ValueError` from `int(num_results)`. -/
def fuzzy_search (eng : Engine) (qp : List (String × String)) : Option Response :=
  match getParam qp "q" with
  | none => some qErrResp
  | some q =>
    match numResultsArg qp with
    | none => none
    | some n =>
      let filters := parse_params qp
      let fuzzy_res := eng.fuzzy_search q n filters
      let search_res : List Json :=
        if (getParam qp "include_ref").isSome then fuzzy_res.map extendedRecord
        else fuzzy_res.map minimalRecord
      match getParam qp "callback" with
      | some cb => some ⟨Body.script cb (Json.arr search_res), 200⟩
      | none => some ⟨Body.json (Json.arr search_res), 200⟩

/-- The `/api/fetch/` GET handler `fetch` (main.py lines 142–161): resolve
by id when `shape_id` is present (`none` when `int(shape_id)` raises),
else by lowercased `shape_ref_code`, else nothing; a `None` resolution is
the not-found error, otherwise the payload passes through with 200. -/
def fetch (eng : Engine) (qp : List (String × String)) : Option Response :=
  match getParam qp "shape_id" with
  | some sid =>
    match (pyInt sid).map eng.get_shape_by_id with
    | none => none
    | some none => some notFoundResp
    | some (some r) => some ⟨Body.json r, 200⟩
  | none =>
    match getParam qp "shape_ref_code" with
    | some code =>
      match eng.get_shape_by_ref_code (pyLower code) with
      | none => some notFoundResp
      | some r => some ⟨Body.json r, 200⟩
    | none => some notFoundResp

/-- `int(query_params.get('radius', 50))` (main.py line 170). -/
def radiusArg (qp : List (String × String)) : Option Int :=
  match getParam qp "radius" with
  | none => some 50
  | some s => pyInt s

/-- `parse_bool(query_params.get('country_exact', False))` (main.py
line 171): the dict default is the boolean `False`, so absence parses to
`some false`. -/
def countryExactArg (qp : List (String × String)) : Option Bool :=
  match getParam qp "country_exact" with
  | none => parse_bool (PyVal.VBool false) true false
  | some s => parse_bool (PyVal.VStr s) true false

/-- The reference code in effect after main.py lines 174–175: when
`shape_id` is present its engine resolution replaces any supplied
`shape_ref_code` (outer `none` when `int(shape_id)` raises); otherwise the
supplied `shape_ref_code` stands. -/
def resolvedRefCode (eng : Engine) (qp : List (String × String)) : Option (Option String) :=
  match getParam qp "shape_id" with
  | some sid => (pyInt sid).map eng.get_shape_ref_code
  | none => some (getParam qp "shape_ref_code")

/-- The `/api/radius/` GET handler `radius_search` (main.py lines 164–198),
with the source's evaluation order: `int(radius)` first, then
`int(shape_id)` resolution, then the `radius < 1` check, then the missing
reference-code check, then the engine call. -/
def radius_search (eng : Engine) (qp : List (String × String)) : Option Response :=
  match radiusArg qp with
  | none => none
  | some radius =>
    let country_exact := countryExactArg qp
    match resolvedRefCode eng qp with
    | none => none
    | some shape_ref_code =>
      if radius < 1 then some radiusErrResp
      else
        match shape_ref_code with
        | none => some notFoundResp
        | some code =>
          match eng.radius_search code radius country_exact with
          | none => some notFoundResp
          | some res => some ⟨Body.json res, 200⟩

/-- The records carried by a successful search response, through either
transport mode. -/
def responseRecords : Option Response → Option (List Json)
  | none => none
  | some r =>
    if r.status = 200 then
      match r.body with
      | Body.json (Json.arr xs) => some xs
      | Body.script _ (Json.arr xs) => some xs
      | _ => none
    else none

/-- The keys of a JSON object, in order. -/
def jsonKeys : Json → Option (List String)
  | Json.obj kvs => some (kvs.map Prod.fst)
  | _ => none

/-- Field access on a JSON object. -/
def jsonGet : Json → String → Option Json
  | Json.obj kvs, k => jlookup kvs k
  | _, _ => none

/-- An engine that finds nothing; used to evaluate handlers at concrete
requests. -/
def trivEngine : Engine :=
  ⟨fun _ _ _ => [], fun _ => none, fun _ => none, fun _ => none, fun _ _ _ => none⟩

/-- An engine returning one concrete fuzzy match and resolving shape id 5;
used to evaluate handlers at concrete requests. -/
def oneMatchEngine : Engine :=
  ⟨fun _ _ _ => [⟨some (Json.num 1), some (Json.str "Springfield"),
                  some [("id", Json.num 7), ("ref_data", Json.obj [("country", Json.str "US")])]⟩],
   fun _ => none, fun _ => none,
   fun n => if n = 5 then some "abc" else none,
   fun _ _ _ => some (Json.arr [])⟩

/-- `eng` with its fuzzy-search function replaced. -/
def withFuzzy (eng : Engine) (g : String → Int → Option (List (String × FilterVal)) → List Match) :
    Engine :=
  ⟨g, eng.get_shape_by_id, eng.get_shape_by_ref_code, eng.get_shape_ref_code, eng.radius_search⟩

/-- `eng` with its radius-search function replaced. -/
def withRadius (eng : Engine) (f : String → Int → Option Bool → Option Json) : Engine :=
  ⟨eng.fuzzy_search, eng.get_shape_by_id, eng.get_shape_by_ref_code, eng.get_shape_ref_code, f⟩

/-- The request with its `shape_ref_code` parameter replaced by `v`
(removed when `v = none`); every other parameter is untouched. -/
def withRefCode (qp : List (String × String)) (v : Option String) : List (String × String) :=
  let base := qp.filter (fun p => p.1 != "shape_ref_code")
  match v with
  | some s => ("shape_ref_code", s) :: base
  | none => base

/-- C2: `parse_bool` is total and deterministic: booleans pass through,
integer-like and real-valued inputs yield `value > 0`, strings whose
lowercase form is in the affirmative set yield true, in the negative set
false, and every other input yields `none` when `nullable` is true and
the supplied `default` otherwise. -/
theorem parse_bool_total (nullable default : Bool) :
    (∀ b, parse_bool (PyVal.VBool b) nullable default = some b)
    ∧ (∀ n : Int, parse_bool (PyVal.VInt n) nullable default = some (decide (0 < n)))
    ∧ (∀ q : ℚ, parse_bool (PyVal.VFloat q) nullable default = some (decide (0 < q)))
    ∧ (∀ s, pyLower s ∈ affirmative → parse_bool (PyVal.VStr s) nullable default = some true)
    ∧ (∀ s, pyLower s ∈ negative → parse_bool (PyVal.VStr s) nullable default = some false)
    ∧ (∀ s, pyLower s ∉ affirmative → pyLower s ∉ negative →
        parse_bool (PyVal.VStr s) nullable default =
          if nullable then none else some default) := by
  refine ⟨fun b => rfl, fun n => rfl, fun q => rfl, ?_, ?_, ?_⟩
  · intro s h
    simp [parse_bool, h]
  · intro s h
    have hna : pyLower s ∉ affirmative := by
      simp only [negative, List.mem_cons, List.not_mem_nil, or_false] at h
      rcases h with h | h | h | h | h <;> simp [affirmative, h]
    simp [parse_bool, h, hna]
  · intro s h1 h2
    simp [parse_bool, h1, h2]

/-- A key occurring in the request always has a value. -/
theorem getParam_exists_of_mem (qp : List (String × String)) (k : String)
    (h : k ∈ qp.map Prod.fst) : ∃ raw, getParam qp k = some raw := by
  induction qp with
  | nil => simp at h
  | cons p rest ih =>
    rw [List.map_cons] at h
    by_cases hp : p.1 = k
    · exact ⟨p.2, by simp [getParam, hp]⟩
    · rcases List.mem_cons.mp h with h1 | h1
      · exact absurd h1.symm hp
      · rcases ih h1 with ⟨raw, hraw⟩
        exact ⟨raw, by simp [getParam, hp, hraw]⟩

/-- Membership in the recognized-key intersection. -/
theorem mem_included_params (qp : List (String × String)) (k : String) :
    k ∈ included_params qp ↔ k ∈ qp.map Prod.fst ∧ k ∈ allowed_params := by
  simp [included_params, List.mem_filter]

/-- The accumulation loop only appends to its accumulator. -/
theorem build_params_append (qp : List (String × String)) (keys : List String) :
    ∀ acc, build_params qp keys acc = acc ++ build_params qp keys [] := by
  induction keys with
  | nil => intro acc; simp [build_params]
  | cons k rest ih =>
    intro acc
    cases hg : getParam qp k with
    | none => simp only [build_params, hg]; rw [ih acc]
    | some raw =>
      cases hf : params_func k raw with
      | none => simp only [build_params, hg, hf]; rw [ih acc]
      | some v =>
        simp only [build_params, hg, hf]
        rw [ih (acc ++ [(k, v)]), ih ([] ++ [(k, v)])]
        simp

/-- A pair is produced by the accumulation loop exactly when its key is
one of the processed keys and the key's looked-up value validates to the
pair's value. -/
theorem build_params_mem (qp : List (String × String)) (keys : List String)
    (kv : String × FilterVal) :
    kv ∈ build_params qp keys [] ↔
      kv.1 ∈ keys ∧ ∃ raw, getParam qp kv.1 = some raw ∧ params_func kv.1 raw = some kv.2 := by
  obtain ⟨k1, v1⟩ := kv
  induction keys with
  | nil => simp [build_params]
  | cons k rest ih =>
    cases hg : getParam qp k with
    | none =>
      simp only [build_params, hg]
      rw [ih]
      constructor
      · rintro ⟨h1, raw, h2, h3⟩
        exact ⟨List.mem_cons_of_mem _ h1, raw, h2, h3⟩
      · rintro ⟨h1, raw, h2, h3⟩
        rcases List.mem_cons.mp h1 with h1 | h1
        · rw [h1, hg] at h2; cases h2
        · exact ⟨h1, raw, h2, h3⟩
    | some raw =>
      cases hf : params_func k raw with
      | none =>
        simp only [build_params, hg, hf]
        rw [ih]
        constructor
        · rintro ⟨h1, raw', h2, h3⟩
          exact ⟨List.mem_cons_of_mem _ h1, raw', h2, h3⟩
        · rintro ⟨h1, raw', h2, h3⟩
          rcases List.mem_cons.mp h1 with h1 | h1
          · rw [h1, hg] at h2
            cases h2
            rw [h1, hf] at h3
            cases h3
          · exact ⟨h1, raw', h2, h3⟩
      | some v =>
        simp only [build_params, hg, hf]
        rw [build_params_append qp rest ([] ++ [(k, v)])]
        simp only [List.nil_append, List.singleton_append]
        rw [List.mem_cons, ih]
        constructor
        · rintro (h1 | ⟨h1, raw', h2, h3⟩)
          · injection h1 with hk hv
            subst hk
            subst hv
            exact ⟨List.mem_cons_self _ _, raw, hg, hf⟩
          · exact ⟨List.mem_cons_of_mem _ h1, raw', h2, h3⟩
        · rintro ⟨h1, raw', h2, h3⟩
          rcases List.mem_cons.mp h1 with h1 | h1
          · subst h1
            rw [hg] at h2
            cases h2
            rw [hf] at h3
            cases h3
            exact Or.inl rfl
          · exact Or.inr ⟨h1, raw', h2, h3⟩

/-- The accumulation loop is empty exactly when every processed key's
value validates to `None`. -/
theorem build_params_nil_iff (qp : List (String × String)) (keys : List String) :
    build_params qp keys [] = [] ↔
      ∀ k ∈ keys, ∀ raw, getParam qp k = some raw → params_func k raw = none := by
  rw [List.eq_nil_iff_forall_not_mem]
  constructor
  · intro h k hk raw hraw
    cases hf : params_func k raw with
    | none => rfl
    | some v => exact absurd ((build_params_mem qp keys (k, v)).mpr ⟨hk, raw, hraw, hf⟩) (h (k, v))
  · rintro h kv hkv
    rcases (build_params_mem qp keys kv).mp hkv with ⟨h1, raw, h2, h3⟩
    rw [h kv.1 h1 raw h2] at h3
    cases h3

/-- C3: `parse_params` keeps exactly the recognized keys whose looked-up
value passes the key's validator — Boolean Coercion for the four boolean
keys, uppercase-iff-length-2 for the two geographic keys — omits failed
keys, and yields `none` exactly when no recognized key is present or every
recognized key's value failed validation; otherwise the result is the
non-empty accumulated mapping. -/
theorem parse_params_characterization (qp : List (String × String)) :
    (∀ m, parse_params qp = some m → m ≠ [] ∧ ∀ kv : String × FilterVal,
        (kv ∈ m ↔ kv.1 ∈ qp.map Prod.fst ∧ kv.1 ∈ allowed_params
          ∧ ∃ raw, getParam qp kv.1 = some raw ∧ params_func kv.1 raw = some kv.2))
    ∧ (parse_params qp = none ↔
        ∀ k ∈ qp.map Prod.fst, k ∈ allowed_params →
          ∀ raw, getParam qp k = some raw → params_func k raw = none)
    ∧ (∀ k ∈ (["is_zip_code", "is_aggregate", "is_three_digit_zip_code",
          "geo_type"] : List String),
        ∀ v, params_func k v = (parse_bool (PyVal.VStr v) true false).map FilterVal.FBool)
    ∧ (∀ k ∈ (["ref_data.country", "ref_data.state_prov"] : List String),
        ∀ v, params_func k v =
          if v.length = 2 then some (FilterVal.FStr (pyUpper v)) else none) := by
  refine ⟨?_, ?_, ?_, ?_⟩
  · intro m hm
    by_cases hinc : included_params qp = []
    · simp [parse_params, hinc] at hm
    · by_cases hb : build_params qp (included_params qp) [] = []
      · simp [parse_params, hinc, hb] at hm
      · have hm' : m = build_params qp (included_params qp) [] := by
          simp [parse_params, hinc, hb] at hm
          exact hm.symm
        subst hm'
        refine ⟨hb, fun kv => ?_⟩
        rw [build_params_mem, mem_included_params, and_assoc]
  · constructor
    · intro hnone k hk hall raw hraw
      by_cases hinc : included_params qp = []
      · exact absurd ((mem_included_params qp k).mpr ⟨hk, hall⟩) (hinc ▸ List.not_mem_nil k)
      · by_cases hb : build_params qp (included_params qp) [] = []
        · exact (build_params_nil_iff qp _).mp hb k ((mem_included_params qp k).mpr ⟨hk, hall⟩)
            raw hraw
        · simp [parse_params, hinc, hb] at hnone
    · intro h
      by_cases hinc : included_params qp = []
      · simp [parse_params, hinc]
      · have hb : build_params qp (included_params qp) [] = [] := by
          rw [build_params_nil_iff]
          intro k hk raw hraw
          rcases (mem_included_params qp k).mp hk with ⟨h1, h2⟩
          exact h k h1 h2 raw hraw
        simp [parse_params, hinc, hb]
  · intro k hk v
    fin_cases hk <;> rfl
  · intro k hk v
    fin_cases hk <;> rfl

/-- Witness for C3 at concrete inputs: the resolved filter mapping for
`{is_zip_code: "yes", unknown: "x"}` is non-empty, and a 3-letter country
code yields no filters. -/
theorem parse_params_characterization_witness :
    ([("is_zip_code", FilterVal.FBool true)] : List (String × FilterVal)) ≠ []
    ∧ parse_params [("ref_data.country", "usa")] = none := by
  constructor
  · exact ((parse_params_characterization [("is_zip_code", "yes"), ("unknown", "x")]).1
      [("is_zip_code", FilterVal.FBool true)] (by rfl)).1
  · refine ((parse_params_characterization [("ref_data.country", "usa")]).2.1).mpr ?_
    intro k hk _ raw hraw
    have hk' : k = "ref_data.country" := by simpa using hk
    subst hk'
    have hraw' : raw = "usa" := Option.some.inj (hraw.symm.trans (by rfl))
    subst hraw'
    rfl

/-- Witness for C2 at concrete inputs: an unrecognized string is
undetermined when nullable, and the integer 5 coerces to true. -/
theorem parse_bool_total_witness :
    parse_bool (PyVal.VStr "maybe") true false = none
    ∧ parse_bool (PyVal.VInt 5) true false = some true := by
  constructor
  · have h := (parse_bool_total true false).2.2.2.2.2 "maybe" (by decide) (by decide)
    simpa using h
  · simpa using (parse_bool_total true false).2.1 5

/-- C8: the fetch handler resolves by numeric id when `shape_id` is
present (even when `shape_ref_code` is also supplied), else by the
lowercased `shape_ref_code`; with both absent it attempts no resolution
and returns the not-found error, and a successful resolution passes the
engine payload through with status 200. -/
theorem fetch_resolution (eng : Engine) (qp : List (String × String)) :
    (∀ sid n, getParam qp "shape_id" = some sid → pyInt sid = some n →
      fetch eng qp = (match eng.get_shape_by_id n with
        | none => some notFoundResp
        | some r => some ⟨Body.json r, 200⟩))
    ∧ (getParam qp "shape_id" = none →
      ∀ code, getParam qp "shape_ref_code" = some code →
        fetch eng qp = (match eng.get_shape_by_ref_code (pyLower code) with
          | none => some notFoundResp
          | some r => some ⟨Body.json r, 200⟩))
    ∧ (getParam qp "shape_id" = none → getParam qp "shape_ref_code" = none →
      fetch eng qp = some notFoundResp) := by
  refine ⟨?_, ?_, ?_⟩
  · intro sid n h1 h2
    cases hr : eng.get_shape_by_id n with
    | none => simp [fetch, h1, h2, hr]
    | some r => simp [fetch, h1, h2, hr]
  · intro h1 code h2
    cases hr : eng.get_shape_by_ref_code (pyLower code) with
    | none => simp [fetch, h1, h2, hr]
    | some r => simp [fetch, h1, h2, hr]
  · intro h1 h2
    simp [fetch, h1, h2]

/-- Witness for C8: a fetch request with neither identifier is
not-found. -/
theorem fetch_resolution_witness :
    fetch trivEngine ([] : List (String × String)) = some notFoundResp :=
  (fetch_resolution trivEngine []).2.2 rfl rfl

/-- C6: with a parseable radius below 1 (and any present `shape_id`
parseable, so the handler reaches the check) the radius handler answers
the radius-bound error with the not-found status, regardless of any
otherwise-valid shape reference; with radius at least 1 that error is
never produced. -/
theorem radius_bound (eng : Engine) (qp : List (String × String)) (r : Int)
    (hr : radiusArg qp = some r)
    (hsid : ∀ s, getParam qp "shape_id" = some s → (pyInt s).isSome) :
    (r < 1 → radius_search eng qp = some radiusErrResp)
    ∧ (1 ≤ r → radius_search eng qp ≠ some radiusErrResp) := by
  have hres : ∃ c, resolvedRefCode eng qp = some c := by
    cases hg : getParam qp "shape_id" with
    | none => exact ⟨getParam qp "shape_ref_code", by simp [resolvedRefCode, hg]⟩
    | some sid =>
      have hs := hsid sid hg
      cases hp : pyInt sid with
      | none => rw [hp] at hs; cases hs
      | some n => exact ⟨eng.get_shape_ref_code n, by simp [resolvedRefCode, hg, hp]⟩
  obtain ⟨c, hc⟩ := hres
  constructor
  · intro hlt
    simp [radius_search, hr, hc, hlt]
  · intro hge
    have hnlt : ¬(r < 1) := not_lt.mpr hge
    cases c with
    | none => simp [radius_search, hr, hc, hnlt, notFoundResp, radiusErrResp, errBody]
    | some code =>
      cases he : eng.radius_search code r (countryExactArg qp) with
      | none => simp [radius_search, hr, hc, hnlt, he, notFoundResp, radiusErrResp, errBody]
      | some res => simp [radius_search, hr, hc, hnlt, he, radiusErrResp]

/-- Witness for C6: `radius=0` with a valid, resolvable `shape_id`
still yields the radius-bound error. -/
theorem radius_bound_witness :
    radius_search oneMatchEngine [("radius", "0"), ("shape_id", "5")] = some radiusErrResp := by
  refine (radius_bound oneMatchEngine [("radius", "0"), ("shape_id", "5")] 0 rfl ?_).1 (by decide)
  intro s hs
  have hs' : s = "5" :=
    (Option.some.inj ((by rfl :
      getParam [("radius", "0"), ("shape_id", "5")] "shape_id" = some "5").symm.trans hs)).symm
  subst hs'
  rfl

/-- Removing the pairs keyed `K` leaves every other lookup unchanged. -/
theorem getParam_filter_ne (qp : List (String × String)) (K k : String) (h : k ≠ K) :
    getParam (qp.filter (fun p => p.1 != K)) k = getParam qp k := by
  induction qp with
  | nil => rfl
  | cons p rest ih =>
    have hKk : ¬(K = k) := fun hh => h hh.symm
    by_cases hpK : p.1 = K
    · simp [List.filter_cons, hpK, getParam, hKk, ih]
    · by_cases hpk : p.1 = k
      · simp [List.filter_cons, hpK, getParam, hpk, h, ih]
      · simp [List.filter_cons, hpK, getParam, hpk, h, ih]

/-- After removing the pairs keyed `K`, looking `K` up finds nothing. -/
theorem getParam_filter_self (qp : List (String × String)) (K : String) :
    getParam (qp.filter (fun p => p.1 != K)) K = none := by
  induction qp with
  | nil => rfl
  | cons p rest ih =>
    by_cases hpK : p.1 = K
    · simp [List.filter_cons, hpK, ih]
    · simp [List.filter_cons, hpK, getParam, ih]

/-- Lookup in a request whose `shape_ref_code` was replaced by `v`. -/
theorem getParam_withRefCode (qp : List (String × String)) (v : Option String) (k : String) :
    getParam (withRefCode qp v) k =
      if k = "shape_ref_code" then v else getParam qp k := by
  by_cases hk : k = "shape_ref_code"
  · subst hk
    cases v with
    | none => simpa [withRefCode] using getParam_filter_self qp "shape_ref_code"
    | some s => simp [withRefCode, getParam]
  · cases v with
    | none => simpa [withRefCode, hk] using getParam_filter_ne qp "shape_ref_code" k hk
    | some s =>
      have hne : ¬("shape_ref_code" = k) := fun hh => hk hh.symm
      simp only [withRefCode, getParam, hne, if_neg, if_neg hk]
      exact getParam_filter_ne qp "shape_ref_code" k hk

/-- The radius handler consults the request only through its radius,
country-exactness and resolved reference code. -/
theorem radius_search_congr (eng : Engine) (qp qp' : List (String × String))
    (h1 : radiusArg qp = radiusArg qp')
    (h2 : countryExactArg qp = countryExactArg qp')
    (h3 : resolvedRefCode eng qp = resolvedRefCode eng qp') :
    radius_search eng qp = radius_search eng qp' := by
  unfold radius_search
  rw [h1, h2, h3]

/-- C7 (amended): when `shape_id` is present, its engine resolution is the
reference code in effect and supersedes any supplied `shape_ref_code`; and
when the radius check passes (radius at least 1) and no reference code is
available after that step, the handler answers the not-found error without
consulting the engine's radius search. -/
theorem radius_ref_resolution (eng : Engine) (qp : List (String × String)) :
    (∀ sid, getParam qp "shape_id" = some sid →
      (∀ n, pyInt sid = some n → resolvedRefCode eng qp = some (eng.get_shape_ref_code n))
      ∧ ∀ v, radius_search eng qp = radius_search eng (withRefCode qp v))
    ∧ (∀ r, radiusArg qp = some r → 1 ≤ r → resolvedRefCode eng qp = some none →
        radius_search eng qp = some notFoundResp
        ∧ ∀ f, radius_search (withRadius eng f) qp = some notFoundResp) := by
  constructor
  · intro sid hsid
    constructor
    · intro n hn
      simp [resolvedRefCode, hsid, hn]
    · intro v
      apply radius_search_congr
      · simp [radiusArg, getParam_withRefCode]
      · simp [countryExactArg, getParam_withRefCode]
      · simp [resolvedRefCode, getParam_withRefCode, hsid]
  · intro r hr hge hnone
    have hnlt : ¬(r < 1) := not_lt.mpr hge
    constructor
    · simp [radius_search, hr, hnone, hnlt]
    · intro f
      have hres' : resolvedRefCode (withRadius eng f) qp = some none := hnone
      simp [radius_search, hr, hres', hnlt]

/-- Witness for C7 (amended): a request carrying only an unresolvable
`shape_id` is answered not-found. -/
theorem radius_ref_resolution_witness :
    radius_search trivEngine [("shape_id", "5")] = some notFoundResp :=
  ((radius_ref_resolution trivEngine [("shape_id", "5")]).2 50 rfl (by norm_num) rfl).1

/-- Counterexample to C7 as stated: with `radius=0` and no shape reference
at all, no reference code is available after the resolution step, yet the
handler answers the radius-bound message rather than `"not found"`. -/
theorem radius_ref_resolution_cex :
    resolvedRefCode trivEngine [("radius", "0")] = some none
    ∧ radius_search trivEngine [("radius", "0")] = some radiusErrResp
    ∧ radius_search trivEngine [("radius", "0")] ≠ some notFoundResp := by
  refine ⟨rfl, rfl, fun h => ?_⟩
  rw [show radius_search trivEngine [("radius", "0")] = some radiusErrResp from rfl] at h
  simp [radiusErrResp, notFoundResp, errBody] at h

/-- The affirmative and negative sets share no member. -/
theorem affirmative_negative_disjoint (t : String)
    (h1 : t ∈ affirmative) (h2 : t ∈ negative) : False := by
  simp only [affirmative, List.mem_cons, List.not_mem_nil, or_false] at h1
  rcases h1 with h1 | h1 | h1 | h1 | h1 <;> subst h1 <;> simp [negative] at h2

/-- Counterexample to C4 as stated: `q` is present, yet a non-numeric
`num_results` makes `int(...)` raise out of the handler instead of
producing a success response. -/
theorem fuzzy_q_cex :
    getParam [("q", "x"), ("num_results", "abc")] "q" = some "x"
    ∧ fuzzy_search trivEngine [("q", "x"), ("num_results", "abc")] = none := ⟨rfl, rfl⟩

/-- C4 (amended): the search handler answers the missing-query error with
status 400 exactly when `q` is absent; when `q` is present and
`num_results` (when present and non-empty) parses as an integer, it
answers a success with status 200; and an engine result of no matches
yields the empty record array, not an error. -/
theorem fuzzy_q_behavior (eng : Engine) (qp : List (String × String))
    (hnum : ∀ s, getParam qp "num_results" = some s → s ≠ "" → (pyInt s).isSome) :
    (fuzzy_search eng qp = some qErrResp ↔ getParam qp "q" = none)
    ∧ (∀ q, getParam qp "q" = some q →
        ∃ r, fuzzy_search eng qp = some r ∧ r.status = 200)
    ∧ (∀ q n, getParam qp "q" = some q → numResultsArg qp = some n →
        eng.fuzzy_search q n (parse_params qp) = [] →
        responseRecords (fuzzy_search eng qp) = some []) := by
  have hnumS : (numResultsArg qp).isSome := by
    cases hg : getParam qp "num_results" with
    | none => simp [numResultsArg, hg]
    | some s =>
      by_cases hs : s = ""
      · simp [numResultsArg, hg, hs]
      · simpa [numResultsArg, hg, hs] using hnum s hg hs
  obtain ⟨n0, hn0⟩ := Option.isSome_iff_exists.mp hnumS
  refine ⟨?_, ?_, ?_⟩
  · cases hq : getParam qp "q" with
    | none => simp [fuzzy_search, hq]
    | some q =>
      cases hcb : getParam qp "callback" with
      | none => simp [fuzzy_search, hq, hn0, hcb, qErrResp, errBody]
      | some cb => simp [fuzzy_search, hq, hn0, hcb, qErrResp, errBody]
  · intro q hq
    cases hcb : getParam qp "callback" with
    | none => simp [fuzzy_search, hq, hn0, hcb]
    | some cb => simp [fuzzy_search, hq, hn0, hcb]
  · intro q n hq hn he
    cases hcb : getParam qp "callback" with
    | none => simp [fuzzy_search, hq, hn, hcb, he, responseRecords]
    | some cb => simp [fuzzy_search, hq, hn, hcb, he, responseRecords]

/-- Witness for C4 (amended): `q="spring"` with the engine returning no
matches is a success carrying the empty array. -/
theorem fuzzy_q_behavior_witness :
    responseRecords (fuzzy_search trivEngine [("q", "spring")]) = some [] :=
  (fuzzy_q_behavior trivEngine [("q", "spring")]
    (fun _ hs _ => by simp [getParam] at hs)).2.2 "spring" 8 rfl rfl rfl

/-- C5: the records of a search success are the per-match records in the
mode selected by `include_ref`: with the flag present (any value) the
extended record with exactly the keys id, name, ref, shape_id, `ref`
drawn from the match's `extra.ref_data`; without it the minimal record
with exactly the keys id, name, shape_id and no `ref` key; in both modes
`shape_id` is the match's `extra.id`, JSON null when missing. -/
theorem fuzzy_record_shape (eng : Engine) (qp : List (String × String))
    (q : String) (n : Int) (body : List Json)
    (hq : getParam qp "q" = some q) (hn : numResultsArg qp = some n)
    (hb : responseRecords (fuzzy_search eng qp) = some body) :
    body = (if (getParam qp "include_ref").isSome then
        List.map extendedRecord (eng.fuzzy_search q n (parse_params qp))
      else List.map minimalRecord (eng.fuzzy_search q n (parse_params qp)))
    ∧ (∀ x : Match,
        jsonKeys (extendedRecord x) = some ["id", "name", "ref", "shape_id"]
        ∧ jsonKeys (minimalRecord x) = some ["id", "name", "shape_id"]
        ∧ jsonGet (extendedRecord x) "ref" = some (matchRef x)
        ∧ jsonGet (minimalRecord x) "ref" = none
        ∧ jsonGet (extendedRecord x) "shape_id" = some (matchShapeId x)
        ∧ jsonGet (minimalRecord x) "shape_id" = some (matchShapeId x)
        ∧ (jlookup (extraDict x) "id" = none → matchShapeId x = Json.null)) := by
  constructor
  · cases hcb : getParam qp "callback" with
    | none =>
      simp [fuzzy_search, hq, hn, hcb, responseRecords] at hb
      exact hb.symm
    | some cb =>
      simp [fuzzy_search, hq, hn, hcb, responseRecords] at hb
      exact hb.symm
  · intro x
    refine ⟨rfl, rfl, rfl, rfl, rfl, rfl, fun h => by simp [matchShapeId, h]⟩

/-- Witness for C5: with `include_ref` absent, the one concrete engine
match is reshaped into the minimal record. -/
theorem fuzzy_record_shape_witness :
    ([Json.obj [("id", Json.num 1), ("name", Json.str "Springfield"),
        ("shape_id", Json.num 7)]] : List Json) =
      List.map minimalRecord
        (oneMatchEngine.fuzzy_search "spring" 8 (parse_params [("q", "spring")])) := by
  have h := (fuzzy_record_shape oneMatchEngine [("q", "spring")] "spring" 8
    [Json.obj [("id", Json.num 1), ("name", Json.str "Springfield"), ("shape_id", Json.num 7)]]
    rfl rfl rfl).1
  simpa [getParam] using h

/-- C9: with `q` present, the engine's fuzzy search is invoked with
`num_results = 8` when the parameter is absent or falsy (the empty
string), and with the integer coercion of the supplied value otherwise:
replacing the engine by one that ignores the passed bound and uses that
value changes nothing. -/
theorem num_results_bound (eng : Engine) (qp : List (String × String))
    (q : String) (hq : getParam qp "q" = some q) :
    ((getParam qp "num_results" = none ∨ getParam qp "num_results" = some "") →
      numResultsArg qp = some 8
      ∧ fuzzy_search eng qp =
          fuzzy_search (withFuzzy eng (fun s _ fl => eng.fuzzy_search s 8 fl)) qp)
    ∧ (∀ s n, getParam qp "num_results" = some s → s ≠ "" → pyInt s = some n →
      numResultsArg qp = some n
      ∧ fuzzy_search eng qp =
          fuzzy_search (withFuzzy eng (fun u _ fl => eng.fuzzy_search u n fl)) qp) := by
  constructor
  · intro h
    have hnv : numResultsArg qp = some 8 := by
      rcases h with h | h <;> simp [numResultsArg, h]
    exact ⟨hnv, by simp [fuzzy_search, hq, hnv, withFuzzy]⟩
  · intro s n hs hne hp
    have hnv : numResultsArg qp = some n := by simp [numResultsArg, hs, hne, hp]
    exact ⟨hnv, by simp [fuzzy_search, hq, hnv, withFuzzy]⟩

/-- Witness for C9: an empty `num_results` value falls back to the
default bound 8. -/
theorem num_results_bound_witness :
    numResultsArg [("q", "a"), ("num_results", "")] = some 8 :=
  ((num_results_bound trivEngine [("q", "a"), ("num_results", "")] "a" rfl).1 (Or.inr rfl)).1

/-- C10: the radius handler passes `country_exact` to the engine exactly
as Boolean Coercion leaves it: a present but unrecognized string is
passed as undetermined (`none`), never as false, and false is passed
exactly when the parameter is absent or parses negatively. -/
theorem country_exact_tristate (qp : List (String × String)) :
    (∀ s, getParam qp "country_exact" = some s →
      pyLower s ∉ affirmative → pyLower s ∉ negative → countryExactArg qp = none)
    ∧ (countryExactArg qp = some false ↔
        (getParam qp "country_exact" = none
          ∨ ∃ s, getParam qp "country_exact" = some s ∧ pyLower s ∈ negative))
    ∧ (∀ eng : Engine, radius_search eng qp =
        radius_search
          (withRadius eng (fun c rad _ => eng.radius_search c rad (countryExactArg qp))) qp) := by
  refine ⟨?_, ?_, ?_⟩
  · intro s hs h1 h2
    simp [countryExactArg, hs, parse_bool, h1, h2]
  · cases hg : getParam qp "country_exact" with
    | none => simp [countryExactArg, hg, parse_bool]
    | some s =>
      by_cases ha : pyLower s ∈ affirmative
      · by_cases hb : pyLower s ∈ negative
        · exact absurd hb (fun hb => affirmative_negative_disjoint _ ha hb)
        · simp [countryExactArg, hg, parse_bool, ha, hb]
      · by_cases hb : pyLower s ∈ negative
        · simp [countryExactArg, hg, parse_bool, ha, hb]
        · simp [countryExactArg, hg, parse_bool, ha, hb]
  · intro eng
    rfl

/-- Witness for C10: the unrecognized value "maybe" is passed through as
undetermined. -/
theorem country_exact_tristate_witness :
    countryExactArg [("country_exact", "maybe")] = none :=
  (country_exact_tristate [("country_exact", "maybe")]).1 "maybe" rfl (by decide) (by decide)

/-- With a parseable result bound, the search handler always produces a
response, and that response is a success or a structured error object. -/
theorem fuzzy_search_shape (eng : Engine) (qp : List (String × String))
    (hn : (numResultsArg qp).isSome) :
    (fuzzy_search eng qp).isSome
    ∧ ∀ r : Response, fuzzy_search eng qp = some r →
        r.status = 200 ∨ ∃ msg, r.body = errBody msg := by
  obtain ⟨n0, hn0⟩ := Option.isSome_iff_exists.mp hn
  cases hq : getParam qp "q" with
  | none =>
    refine ⟨by simp [fuzzy_search, hq], fun r hr => ?_⟩
    rw [show fuzzy_search eng qp = some qErrResp from by simp [fuzzy_search, hq]] at hr
    have hr' := Option.some.inj hr
    subst hr'
    exact Or.inr ⟨_, rfl⟩
  | some q =>
    cases hcb : getParam qp "callback" with
    | none =>
      refine ⟨by simp [fuzzy_search, hq, hn0, hcb], fun r hr => ?_⟩
      simp [fuzzy_search, hq, hn0, hcb] at hr
      subst hr
      exact Or.inl rfl
    | some cb =>
      refine ⟨by simp [fuzzy_search, hq, hn0, hcb], fun r hr => ?_⟩
      simp [fuzzy_search, hq, hn0, hcb] at hr
      subst hr
      exact Or.inl rfl

/-- With a parseable `shape_id` (when present), the fetch handler always
produces a response: a success or a structured error object. -/
theorem fetch_shape (eng : Engine) (qp : List (String × String))
    (h3 : ∀ s, getParam qp "shape_id" = some s → (pyInt s).isSome) :
    (fetch eng qp).isSome
    ∧ ∀ r : Response, fetch eng qp = some r →
        r.status = 200 ∨ ∃ msg, r.body = errBody msg := by
  cases hsid : getParam qp "shape_id" with
  | some sid =>
    obtain ⟨m, hm⟩ := Option.isSome_iff_exists.mp (h3 sid hsid)
    cases hres : eng.get_shape_by_id m with
    | none =>
      refine ⟨by simp [fetch, hsid, hm, hres], fun r hr => ?_⟩
      simp [fetch, hsid, hm, hres] at hr
      subst hr
      exact Or.inr ⟨_, rfl⟩
    | some payload =>
      refine ⟨by simp [fetch, hsid, hm, hres], fun r hr => ?_⟩
      simp [fetch, hsid, hm, hres] at hr
      subst hr
      exact Or.inl rfl
  | none =>
    cases hcode : getParam qp "shape_ref_code" with
    | some code =>
      cases hres : eng.get_shape_by_ref_code (pyLower code) with
      | none =>
        refine ⟨by simp [fetch, hsid, hcode, hres], fun r hr => ?_⟩
        simp [fetch, hsid, hcode, hres] at hr
        subst hr
        exact Or.inr ⟨_, rfl⟩
      | some payload =>
        refine ⟨by simp [fetch, hsid, hcode, hres], fun r hr => ?_⟩
        simp [fetch, hsid, hcode, hres] at hr
        subst hr
        exact Or.inl rfl
    | none =>
      refine ⟨by simp [fetch, hsid, hcode], fun r hr => ?_⟩
      simp [fetch, hsid, hcode] at hr
      subst hr
      exact Or.inr ⟨_, rfl⟩

/-- With parseable `radius` and `shape_id` (when present), the radius
handler always produces a response: a success or a structured error
object. -/
theorem radius_shape (eng : Engine) (qp : List (String × String))
    (h2 : ∀ s, getParam qp "radius" = some s → (pyInt s).isSome)
    (h3 : ∀ s, getParam qp "shape_id" = some s → (pyInt s).isSome) :
    (radius_search eng qp).isSome
    ∧ ∀ r : Response, radius_search eng qp = some r →
        r.status = 200 ∨ ∃ msg, r.body = errBody msg := by
  have hrad : ∃ rv, radiusArg qp = some rv := by
    cases hg : getParam qp "radius" with
    | none => exact ⟨50, by simp [radiusArg, hg]⟩
    | some s =>
      obtain ⟨m, hm⟩ := Option.isSome_iff_exists.mp (h2 s hg)
      exact ⟨m, by simp [radiusArg, hg, hm]⟩
  obtain ⟨rv, hrv⟩ := hrad
  have hres : ∃ c, resolvedRefCode eng qp = some c := by
    cases hg : getParam qp "shape_id" with
    | none => exact ⟨getParam qp "shape_ref_code", by simp [resolvedRefCode, hg]⟩
    | some sid =>
      obtain ⟨m, hm⟩ := Option.isSome_iff_exists.mp (h3 sid hg)
      exact ⟨eng.get_shape_ref_code m, by simp [resolvedRefCode, hg, hm]⟩
  obtain ⟨c, hc⟩ := hres
  by_cases hlt : rv < 1
  · refine ⟨by simp [radius_search, hrv, hc, hlt], fun r hr => ?_⟩
    simp [radius_search, hrv, hc, hlt] at hr
    subst hr
    exact Or.inr ⟨_, rfl⟩
  · cases c with
    | none =>
      refine ⟨by simp [radius_search, hrv, hc, hlt], fun r hr => ?_⟩
      simp [radius_search, hrv, hc, hlt] at hr
      subst hr
      exact Or.inr ⟨_, rfl⟩
    | some code =>
      cases he : eng.radius_search code rv (countryExactArg qp) with
      | none =>
        refine ⟨by simp [radius_search, hrv, hc, hlt, he], fun r hr => ?_⟩
        simp [radius_search, hrv, hc, hlt, he] at hr
        subst hr
        exact Or.inr ⟨_, rfl⟩
      | some res =>
        refine ⟨by simp [radius_search, hrv, hc, hlt, he], fun r hr => ?_⟩
        simp [radius_search, hrv, hc, hlt, he] at hr
        subst hr
        exact Or.inl rfl

/-- Counterexample to C1 as stated: a non-numeric `radius` value makes
`int(...)` raise an uncaught `ValueError` out of the radius handler — no
response at all is produced. -/
theorem handlers_response_cex :
    radius_search trivEngine [("shape_ref_code", "abc"), ("radius", "xyz")] = none := rfl

/-- C1 (amended): whenever the integer-typed parameters parse —
`num_results` (when present and non-empty), `radius` and `shape_id` (when
present) — every handler produces a response, and each produced response
is a success (status 200) or a structured JSON object with an `error`
field; with a non-numeric `num_results`, `radius` or `shape_id` the
`int(...)` conversion raises out of the handler instead. -/
theorem handlers_response (eng : Engine) (qp : List (String × String))
    (h1 : ∀ s, getParam qp "num_results" = some s → s ≠ "" → (pyInt s).isSome)
    (h2 : ∀ s, getParam qp "radius" = some s → (pyInt s).isSome)
    (h3 : ∀ s, getParam qp "shape_id" = some s → (pyInt s).isSome) :
    ((fuzzy_search eng qp).isSome ∧ (fetch eng qp).isSome ∧ (radius_search eng qp).isSome)
    ∧ ∀ r : Response,
        (fuzzy_search eng qp = some r ∨ fetch eng qp = some r ∨ radius_search eng qp = some r) →
        r.status = 200 ∨ ∃ msg, r.body = errBody msg := by
  have hnum : (numResultsArg qp).isSome := by
    cases hg : getParam qp "num_results" with
    | none => simp [numResultsArg, hg]
    | some s =>
      by_cases hs : s = ""
      · simp [numResultsArg, hg, hs]
      · simpa [numResultsArg, hg, hs] using h1 s hg hs
  have hf := fuzzy_search_shape eng qp hnum
  have hfe := fetch_shape eng qp h3
  have hra := radius_shape eng qp h2 h3
  refine ⟨⟨hf.1, hfe.1, hra.1⟩, fun r hr => ?_⟩
  rcases hr with hr | hr | hr
  · exact hf.2 r hr
  · exact hfe.2 r hr
  · exact hra.2 r hr

/-- Witness for C1 (amended): on a request whose only parameter is `q`,
all three handlers produce a response. -/
theorem handlers_response_witness :
    (fuzzy_search trivEngine [("q", "a")]).isSome
    ∧ (fetch trivEngine [("q", "a")]).isSome
    ∧ (radius_search trivEngine [("q", "a")]).isSome :=
  (handlers_response trivEngine [("q", "a")]
    (fun _ hs _ => by simp [getParam] at hs)
    (fun _ hs => by simp [getParam] at hs)
    (fun _ hs => by simp [getParam] at hs)).1
